import Mathlib

/-!
Verification of the htmx-lsp cursor-context classifier and change handler.

Shallow embedding of `src/lsp/src/tree_sitter_querier.rs` and
`src/lsp/src/handle.rs`.  The tree-sitter query engine is an external
collaborator: its output — a list of query matches, each a list of named
captures over syntax-tree nodes — is the abstract input to the embedded
functions.  The engine-side text predicate `(#match? @attr_name "hx-.*")`
of the value query is embedded separately (`hxAttrNameOk`), since one
claim is specifically about it.
-/

namespace HtmxLsp

/-- tree_sitter::Point: a (row, column) pair, ordered lexicographically
(derived Ord on the fields in that order). -/
structure Point where
  row : Nat
  column : Nat
deriving DecidableEq, Repr

/-- The derived lexicographic order on tree_sitter::Point, as a Boolean:
`Point.le a b` is Rust's `a <= b`. -/
def Point.le (a b : Point) : Bool :=
  a.row < b.row || (a.row == b.row && a.column ≤ b.column)

/-- A syntax-tree node as seen by `query_props`: its start and end
positions and the result of `node.utf8_text(source.as_bytes())`
(`none` models a decode failure of the node's byte span). -/
structure TSNode where
  startPosition : Point
  endPosition : Point
  utf8Text : Option String
deriving DecidableEq, Repr

/-- A query capture produced by the engine.  `captureName` stands for
`capture_names[capture.index as usize]`: the name the query string
assigns to this capture. -/
structure QueryCapture where
  captureName : String
  node : TSNode
deriving DecidableEq, Repr

/-- One query match: the list of its captures, in iteration order. -/
structure QueryMatch where
  captures : List QueryCapture
deriving DecidableEq, Repr

/-- CaptureDetails from tree_sitter_querier.rs: the decoded text of the
captured node and that node's end position (`end` is a Lean keyword, so
the field is `endPos`). -/
structure CaptureDetails where
  value : String
  endPos : Point
deriving DecidableEq, Repr

/-- crate::tree_sitter::Position as constructed by the two query
functions: `Position::AttributeName(String)` and
`Position::AttributeValue { name, value }`. -/
inductive Position where
  | AttributeName (name : String)
  | AttributeValue (name : String) (value : String)
deriving DecidableEq, Repr

/-- KEY_VALUE_SEPARATOR from tree_sitter_querier.rs. -/
def KEY_VALUE_SEPARATOR : String := "="

/-- The props HashMap, modelled as an association list where later
inserts are consed to the front; `getProp` reads the most recent insert
for a key, which reproduces `HashMap::insert` overwrite semantics as
observed through `HashMap::get`. -/
def Props := List (String × CaptureDetails)

/-- HashMap::get. -/
def getProp : List (String × CaptureDetails) → String → Option CaptureDetails
  | [], _ => none
  | (k, v) :: rest, key => if k = key then some v else getProp rest key

/-- HashMap::insert (overwriting as observed through `getProp`). -/
def insertProp (props : List (String × CaptureDetails)) (k : String)
    (v : CaptureDetails) : List (String × CaptureDetails) :=
  (k, v) :: props

/-- The body of the inner `for_each` of `query_props`: insert the capture
under its name, with its decoded text (empty string when
`utf8_text` failed) and its end position. -/
def insertCapture (props : List (String × CaptureDetails))
    (c : QueryCapture) : List (String × CaptureDetails) :=
  insertProp props c.captureName
    { value := c.node.utf8Text.getD "", endPos := c.node.endPosition }

/-- One iteration of the outer `for_each` of `query_props`: keep only
captures whose node start position is ≤ the trigger point, then insert
each in order. -/
def addMatch (trigger_point : Point) (props : List (String × CaptureDetails))
    (m : QueryMatch) : List (String × CaptureDetails) :=
  (m.captures.filter
      (fun c => Point.le c.node.startPosition trigger_point)).foldl
    insertCapture props

/-- query_props from tree_sitter_querier.rs, as a function of the match
list the engine produced for (query, node, source).  It always returns
`Some props`. -/
def query_props (matchList : List QueryMatch) (trigger_point : Point) :
    Option (List (String × CaptureDetails)) :=
  some (matchList.foldl (addMatch trigger_point) [])

/-- The resolution logic of query_attr_keys_for_completion after
`query_props`: `props.get("attr_name")?`, then the `error_char` check,
then `Position::AttributeName`. -/
def resolveAttrKey (props : List (String × CaptureDetails)) :
    Option Position :=
  match getProp props "attr_name" with
  | none => none
  | some attr_name =>
    if (getProp props "error_char").isSome then none
    else some (Position.AttributeName attr_name.value)

/-- query_attr_keys_for_completion from tree_sitter_querier.rs, over the
engine's match list. -/
def query_attr_keys_for_completion (matchList : List QueryMatch)
    (trigger_point : Point) : Option Position :=
  (query_props matchList trigger_point).bind resolveAttrKey

/-- The resolution logic of query_attr_values_for_completion after
`query_props`: `props.get("attr_name")?`, the
open_quote_err / empty_attribute branch, the `error_char == "="` branch,
the `trigger_point >= non_empty_attribute.end` branch, and the final
fallthrough `Some(Position::AttributeValue { name, value: "" })`. -/
def resolveAttrValue (props : List (String × CaptureDetails))
    (trigger_point : Point) : Option Position :=
  match getProp props "attr_name" with
  | none => none
  | some attr_name =>
    if (getProp props "open_quote_err").isSome
        || (getProp props "empty_attribute").isSome then
      some (Position.AttributeValue attr_name.value "")
    else if (match getProp props "error_char" with
             | some error_char => error_char.value == KEY_VALUE_SEPARATOR
             | none => false) then
      none
    else if (match getProp props "non_empty_attribute" with
             | some capture => Point.le capture.endPos trigger_point
             | none => false) then
      none
    else
      some (Position.AttributeValue attr_name.value "")

/-- query_attr_values_for_completion from tree_sitter_querier.rs, over
the engine's match list (after the engine's text predicates). -/
def query_attr_values_for_completion (matchList : List QueryMatch)
    (trigger_point : Point) : Option Position :=
  (query_props matchList trigger_point).bind
    (fun props => resolveAttrValue props trigger_point)

/-- Unanchored search for the regex "hx-.*" in a list of characters:
true iff "hx-" occurs as a contiguous substring. -/
def hasHxSomewhere : List Char → Bool
  | 'h' :: 'x' :: '-' :: _ => true
  | _ :: rest => hasHxSomewhere rest
  | [] => false

/-- The `(#match? @attr_name "hx-.*")` text predicate of the value
query: tree-sitter regex predicates are unanchored searches over the
captured node's text. -/
def matchesHxConvention (s : String) : Bool :=
  hasHxSomewhere s.toList

/-- Engine-side evaluation of the value query's `#match?` predicate on
one match: every capture named "attr_name" must satisfy the regex
(its text read through the same utf8 decode, empty on failure). -/
def hxAttrNameOk (m : QueryMatch) : Bool :=
  m.captures.all fun c =>
    c.captureName != "attr_name"
      || matchesHxConvention (c.node.utf8Text.getD "")

/-- The engine drops matches failing a text predicate before they reach
`query_props`. -/
def applyHxNameFilter (matchList : List QueryMatch) : List QueryMatch :=
  matchList.filter hxAttrNameOk

/-- query_attr_values_for_completion including the engine-side
`#match? @attr_name "hx-.*"` filtering of the raw matches. -/
def query_attr_values_filtered (matchList : List QueryMatch)
    (trigger_point : Point) : Option Position :=
  query_attr_values_for_completion (applyHxNameFilter matchList) trigger_point

/-! ### The change handler (src/lsp/src/handle.rs) -/

/-- One content-change block (struct Text in handle.rs). -/
structure Text where
  text : String
deriving DecidableEq, Repr

/-- struct TextDocumentLocation in handle.rs. -/
structure TextDocumentLocation where
  uri : String
deriving DecidableEq, Repr

/-- struct TextDocumentChanges in handle.rs. -/
structure TextDocumentChanges where
  text_document : TextDocumentLocation
  content_changes : List Text
deriving DecidableEq, Repr

/-- An inbound notification: its method string and the result of
`serde_json::from_value::<TextDocumentChanges>(noti.params)` —
`none` models a payload that fails to deserialize. -/
structure Notification where
  method : String
  params : Option TextDocumentChanges
deriving DecidableEq, Repr

/-- HtmxResult from handle.rs; handle_didChange never produces one, so
the payload of the single variant is irrelevant here and kept abstract
as the request id. -/
inductive HtmxResult where
  | AttributeCompletion (id : Nat)
deriving DecidableEq, Repr

/-- The global TEXT_STORE registry (modelled as an explicit map from
document uri to stored text, assumed initialized). -/
def TextStore := String → Option String

/-- texts.insert(uri, text). -/
def TextStore.insert (s : TextStore) (uri text : String) : TextStore :=
  fun u => if u = uri then some text else s u

/-- handle_didChange from handle.rs:43-61, with the TEXT_STORE passed
explicitly.  `Except.error` models a panic: `content_changes[0]` on an
empty vector is an index-out-of-bounds panic, reached before the
`len() > 1` log check.  A params value that fails to deserialize is
absorbed by `.ok()?` (no result, store untouched).  More than one
content change is only logged (`error!`); only the first is applied.
The handler itself always yields `none` as its `Option<HtmxResult>`. -/
def handle_didChange (noti : Notification) (store : TextStore) :
    Except String (Option HtmxResult × TextStore) :=
  match noti.params with
  | none => .ok (none, store)
  | some text_document_changes =>
    match text_document_changes.content_changes with
    | [] => .error "index out of bounds: the len is 0 but the index is 0"
    | first :: _ =>
      .ok (none,
        store.insert text_document_changes.text_document.uri first.text)

/-! ### Claims about the change handler -/

/-- C2 (code bug): handling a didChange notification is claimed never to
abort; a payload that fails to deserialize is indeed absorbed to no
result with the store untouched, but a well-formed payload whose
content-changes list is empty reaches `content_changes[0]` and panics
with an index-out-of-bounds error instead of being absorbed. -/
theorem didChange_empty_content_changes_panics :
    handle_didChange
        ⟨"textDocument/didChange", some ⟨⟨"file:///a.html"⟩, []⟩⟩
        (fun _ => none)
      = .error "index out of bounds: the len is 0 but the index is 0" ∧
    handle_didChange ⟨"textDocument/didChange", none⟩ (fun _ => none)
      = .ok (none, fun _ => none) :=
  ⟨rfl, rfl⟩

/-- C10: for a didChange notification naming uri `U` with a non-empty
content-changes list, handle_didChange succeeds, produces no result
payload, stores the first change's text under `U`, and leaves the stored
text of every other document identifier unchanged. -/
theorem didChange_frame (method uri text : String) (rest : List Text)
    (store : TextStore) :
    handle_didChange ⟨method, some ⟨⟨uri⟩, ⟨text⟩ :: rest⟩⟩ store
      = .ok (none, TextStore.insert store uri text) ∧
    TextStore.insert store uri text uri = some text ∧
    ∀ v, v ≠ uri → TextStore.insert store uri text v = store v := by
  refine ⟨rfl, ?_, ?_⟩
  · simp [TextStore.insert]
  · intro v hv
    simp [TextStore.insert, hv]

/-- C10 witness: a concrete change to "file:///a.html" updates that
entry and leaves "file:///b.html" at its old text. -/
theorem didChange_frame_witness :
    handle_didChange
        ⟨"textDocument/didChange", some ⟨⟨"file:///a.html"⟩, [⟨"new"⟩]⟩⟩
        (fun _ => some "old")
      = .ok (none, TextStore.insert (fun _ => some "old") "file:///a.html" "new") ∧
    TextStore.insert (fun _ => some "old") "file:///a.html" "new" "file:///a.html"
      = some "new" ∧
    TextStore.insert (fun _ => some "old") "file:///a.html" "new" "file:///b.html"
      = some "old" := by
  have h := didChange_frame "textDocument/didChange" "file:///a.html" "new" []
    (fun _ => some "old")
  exact ⟨h.1, h.2.1, (h.2.2 "file:///b.html" (by decide)).trans rfl⟩

/-! ### Claims about the classifier resolution order -/

/-- C5: if neither open_quote_err nor empty_attribute is captured and
error_char is captured with literal text equal to the key/value
separator, query_attr_values_for_completion returns None. -/
theorem attr_value_separator_no_completion
    (matchList : List QueryMatch) (trigger_point : Point)
    (props : List (String × CaptureDetails)) (error_char : CaptureDetails)
    (hq : query_props matchList trigger_point = some props)
    (h1 : getProp props "open_quote_err" = none)
    (h2 : getProp props "empty_attribute" = none)
    (he : getProp props "error_char" = some error_char)
    (hsep : error_char.value = KEY_VALUE_SEPARATOR) :
    query_attr_values_for_completion matchList trigger_point = none := by
  unfold query_attr_values_for_completion
  rw [hq]
  cases ha : getProp props "attr_name" with
  | none => simp [resolveAttrValue, ha]
  | some a => simp [resolveAttrValue, ha, h1, h2, he, hsep]

/-- C5 witness: the capture set of `<div hx-get=|>` (attr_name "hx-get",
last_item, error_char "=") yields no completion. -/
theorem attr_value_separator_no_completion_witness :
    query_attr_values_for_completion
        [⟨[⟨"attr_name", ⟨⟨0, 5⟩, ⟨0, 11⟩, some "hx-get"⟩⟩,
           ⟨"last_item", ⟨⟨0, 5⟩, ⟨0, 12⟩, some "hx-get="⟩⟩,
           ⟨"error_char", ⟨⟨0, 11⟩, ⟨0, 12⟩, some "="⟩⟩]⟩]
        ⟨0, 12⟩
      = none := by
  exact attr_value_separator_no_completion _ _
    [("error_char", ⟨"=", ⟨0, 12⟩⟩),
     ("last_item", ⟨"hx-get=", ⟨0, 12⟩⟩),
     ("attr_name", ⟨"hx-get", ⟨0, 11⟩⟩)]
    ⟨"=", ⟨0, 12⟩⟩ rfl (by decide) (by decide) (by decide) rfl

/-- C6: query_attr_keys_for_completion resolves to None when error_char
is captured, to AttributeName(attr_name.text) when attr_name is captured
without error_char, and to None when attr_name is absent. -/
theorem attr_key_resolution
    (matchList : List QueryMatch) (trigger_point : Point)
    (props : List (String × CaptureDetails))
    (hq : query_props matchList trigger_point = some props) :
    query_attr_keys_for_completion matchList trigger_point
      = (if (getProp props "error_char").isSome then none
         else
           match getProp props "attr_name" with
           | some a => some (Position.AttributeName a.value)
           | none => none) := by
  unfold query_attr_keys_for_completion
  rw [hq]
  cases ha : getProp props "attr_name" with
  | none =>
    cases he : (getProp props "error_char").isSome <;>
      simp [resolveAttrKey, ha, he]
  | some a =>
    cases he : (getProp props "error_char").isSome <;>
      simp [resolveAttrKey, ha, he]

/-- C6 witness: the capture set of `<div hx-|>` (attr_name "hx-" with its
complete_match, no error_char) yields AttributeName("hx-"). -/
theorem attr_key_resolution_witness :
    query_attr_keys_for_completion
        [⟨[⟨"attr_name", ⟨⟨0, 5⟩, ⟨0, 8⟩, some "hx-"⟩⟩,
           ⟨"complete_match", ⟨⟨0, 5⟩, ⟨0, 8⟩, some "hx-"⟩⟩]⟩]
        ⟨0, 8⟩
      = some (Position.AttributeName "hx-") := by
  have h := attr_key_resolution
    [⟨[⟨"attr_name", ⟨⟨0, 5⟩, ⟨0, 8⟩, some "hx-"⟩⟩,
       ⟨"complete_match", ⟨⟨0, 5⟩, ⟨0, 8⟩, some "hx-"⟩⟩]⟩]
    ⟨0, 8⟩
    [("complete_match", ⟨"hx-", ⟨0, 8⟩⟩), ("attr_name", ⟨"hx-", ⟨0, 8⟩⟩)]
    rfl
  rw [h]
  decide

/-- C7: if open_quote_err or empty_attribute is captured together with
attr_name, query_attr_values_for_completion returns
AttributeValue(attr_name.text, ""), before any other branch is
consulted. -/
theorem attr_value_open_or_empty_priority
    (matchList : List QueryMatch) (trigger_point : Point)
    (props : List (String × CaptureDetails)) (a : CaptureDetails)
    (hq : query_props matchList trigger_point = some props)
    (ha : getProp props "attr_name" = some a)
    (hoe : (getProp props "open_quote_err").isSome = true
        ∨ (getProp props "empty_attribute").isSome = true) :
    query_attr_values_for_completion matchList trigger_point
      = some (Position.AttributeValue a.value "") := by
  unfold query_attr_values_for_completion
  rw [hq]
  rcases hoe with h | h <;> simp [resolveAttrValue, ha, h]

/-- C7 witness: the capture set of `<div hx-get="|">` (attr_name
"hx-get", empty_attribute) yields AttributeValue("hx-get", ""). -/
theorem attr_value_open_or_empty_priority_witness :
    query_attr_values_for_completion
        [⟨[⟨"attr_name", ⟨⟨0, 5⟩, ⟨0, 11⟩, some "hx-get"⟩⟩,
           ⟨"empty_attribute", ⟨⟨0, 5⟩, ⟨0, 14⟩, some "hx-get=\"\""⟩⟩]⟩]
        ⟨0, 13⟩
      = some (Position.AttributeValue "hx-get" "") := by
  exact attr_value_open_or_empty_priority _ _
    [("empty_attribute", ⟨"hx-get=\"\"", ⟨0, 14⟩⟩),
     ("attr_name", ⟨"hx-get", ⟨0, 11⟩⟩)]
    ⟨"hx-get", ⟨0, 11⟩⟩ rfl (by decide) (Or.inr (by decide))

/-- C1 as stated is false: with attr_name captured, none of
open_quote_err / empty_attribute / non_empty_attribute captured, and
error_char captured with text "!" (≠ "="), the claimed result is
NoCompletion but query_attr_values_for_completion returns
Some(AttributeValue("hx-get", "")) — the final fallthrough of the code
is a value context, not None. -/
theorem attr_value_fallthrough_cex :
    query_props
        [⟨[⟨"attr_name", ⟨⟨0, 5⟩, ⟨0, 11⟩, some "hx-get"⟩⟩,
           ⟨"last_item", ⟨⟨0, 5⟩, ⟨0, 16⟩, some "hx-get=\"/a\""⟩⟩,
           ⟨"error_char", ⟨⟨0, 17⟩, ⟨0, 18⟩, some "!"⟩⟩]⟩]
        ⟨0, 18⟩
      = some [("error_char", ⟨"!", ⟨0, 18⟩⟩),
              ("last_item", ⟨"hx-get=\"/a\"", ⟨0, 16⟩⟩),
              ("attr_name", ⟨"hx-get", ⟨0, 11⟩⟩)] ∧
    (getProp [("error_char", ⟨"!", ⟨0, 18⟩⟩),
              ("last_item", ⟨"hx-get=\"/a\"", ⟨0, 16⟩⟩),
              ("attr_name", ⟨"hx-get", ⟨0, 11⟩⟩)] "attr_name").isSome = true ∧
    getProp [("error_char", ⟨"!", ⟨0, 18⟩⟩),
             ("last_item", ⟨"hx-get=\"/a\"", ⟨0, 16⟩⟩),
             ("attr_name", ⟨"hx-get", ⟨0, 11⟩⟩)] "open_quote_err" = none ∧
    getProp [("error_char", ⟨"!", ⟨0, 18⟩⟩),
             ("last_item", ⟨"hx-get=\"/a\"", ⟨0, 16⟩⟩),
             ("attr_name", ⟨"hx-get", ⟨0, 11⟩⟩)] "empty_attribute" = none ∧
    getProp [("error_char", ⟨"!", ⟨0, 18⟩⟩),
             ("last_item", ⟨"hx-get=\"/a\"", ⟨0, 16⟩⟩),
             ("attr_name", ⟨"hx-get", ⟨0, 11⟩⟩)] "non_empty_attribute" = none ∧
    (match getProp [("error_char", ⟨"!", ⟨0, 18⟩⟩),
                    ("last_item", ⟨"hx-get=\"/a\"", ⟨0, 16⟩⟩),
                    ("attr_name", ⟨"hx-get", ⟨0, 11⟩⟩)] "error_char" with
     | some ec => ec.value == KEY_VALUE_SEPARATOR
     | none => false) = false ∧
    query_attr_values_for_completion
        [⟨[⟨"attr_name", ⟨⟨0, 5⟩, ⟨0, 11⟩, some "hx-get"⟩⟩,
           ⟨"last_item", ⟨⟨0, 5⟩, ⟨0, 16⟩, some "hx-get=\"/a\""⟩⟩,
           ⟨"error_char", ⟨⟨0, 17⟩, ⟨0, 18⟩, some "!"⟩⟩]⟩]
        ⟨0, 18⟩
      ≠ none := by
  decide

/-- C1 amended: with attr_name captured, none of open_quote_err /
empty_attribute / non_empty_attribute captured, and error_char absent or
with text different from the separator, the final fallthrough returns
AttributeValue(attr_name.text, "") (a value context with empty prefix),
not NoCompletion. -/
theorem attr_value_fallthrough_value_context
    (matchList : List QueryMatch) (trigger_point : Point)
    (props : List (String × CaptureDetails)) (a : CaptureDetails)
    (hq : query_props matchList trigger_point = some props)
    (ha : getProp props "attr_name" = some a)
    (h1 : getProp props "open_quote_err" = none)
    (h2 : getProp props "empty_attribute" = none)
    (h3 : getProp props "non_empty_attribute" = none)
    (he : (match getProp props "error_char" with
           | some ec => ec.value == KEY_VALUE_SEPARATOR
           | none => false) = false) :
    query_attr_values_for_completion matchList trigger_point
      = some (Position.AttributeValue a.value "") := by
  unfold query_attr_values_for_completion
  rw [hq]
  simp [resolveAttrValue, ha, h1, h2, h3, he]

/-- C1 amended witness: the counterexample capture set (attr_name
"hx-get", last_item, error_char "!") produces
AttributeValue("hx-get", ""). -/
theorem attr_value_fallthrough_value_context_witness :
    query_attr_values_for_completion
        [⟨[⟨"attr_name", ⟨⟨0, 5⟩, ⟨0, 11⟩, some "hx-get"⟩⟩,
           ⟨"last_item", ⟨⟨0, 5⟩, ⟨0, 16⟩, some "hx-get=\"/a\""⟩⟩,
           ⟨"error_char", ⟨⟨0, 17⟩, ⟨0, 18⟩, some "!"⟩⟩]⟩]
        ⟨0, 18⟩
      = some (Position.AttributeValue "hx-get" "") := by
  exact attr_value_fallthrough_value_context _ _
    [("error_char", ⟨"!", ⟨0, 18⟩⟩),
     ("last_item", ⟨"hx-get=\"/a\"", ⟨0, 16⟩⟩),
     ("attr_name", ⟨"hx-get", ⟨0, 11⟩⟩)]
    ⟨"hx-get", ⟨0, 11⟩⟩ rfl (by decide) (by decide) (by decide) (by decide)
    (by decide)

/-- C4: with non_empty_attribute captured (and neither open_quote_err
nor empty_attribute, and error_char absent or different from the
separator, and attr_name captured), the result is None when
trigger ≥ the captured end position of non_empty_attribute, and
AttributeValue(attr_name.text, "") — empty prefix, never the typed
value text — otherwise. -/
theorem attr_value_non_empty_boundary
    (matchList : List QueryMatch) (trigger_point : Point)
    (props : List (String × CaptureDetails)) (a capture : CaptureDetails)
    (hq : query_props matchList trigger_point = some props)
    (ha : getProp props "attr_name" = some a)
    (h1 : getProp props "open_quote_err" = none)
    (h2 : getProp props "empty_attribute" = none)
    (he : (match getProp props "error_char" with
           | some ec => ec.value == KEY_VALUE_SEPARATOR
           | none => false) = false)
    (hn : getProp props "non_empty_attribute" = some capture) :
    query_attr_values_for_completion matchList trigger_point
      = (if Point.le capture.endPos trigger_point then none
         else some (Position.AttributeValue a.value "")) := by
  unfold query_attr_values_for_completion
  rw [hq]
  cases hle : Point.le capture.endPos trigger_point <;>
    simp [resolveAttrValue, ha, h1, h2, he, hn, hle]

/-- C4 witness: for the capture set of `<div hx-get="/foo">` (attribute
span ending at column 18), trigger at column 18 (cursor after the
closing quote) yields None, and trigger at column 17 (cursor inside the
value) yields AttributeValue("hx-get", "") with empty prefix. -/
theorem attr_value_non_empty_boundary_witness :
    query_attr_values_for_completion
        [⟨[⟨"attr_name", ⟨⟨0, 5⟩, ⟨0, 11⟩, some "hx-get"⟩⟩,
           ⟨"attr_value", ⟨⟨0, 13⟩, ⟨0, 17⟩, some "/foo"⟩⟩,
           ⟨"non_empty_attribute", ⟨⟨0, 5⟩, ⟨0, 18⟩, some "hx-get=\"/foo\""⟩⟩]⟩]
        ⟨0, 18⟩
      = none ∧
    query_attr_values_for_completion
        [⟨[⟨"attr_name", ⟨⟨0, 5⟩, ⟨0, 11⟩, some "hx-get"⟩⟩,
           ⟨"attr_value", ⟨⟨0, 13⟩, ⟨0, 17⟩, some "/foo"⟩⟩,
           ⟨"non_empty_attribute", ⟨⟨0, 5⟩, ⟨0, 18⟩, some "hx-get=\"/foo\""⟩⟩]⟩]
        ⟨0, 17⟩
      = some (Position.AttributeValue "hx-get" "") := by
  constructor
  · have h := attr_value_non_empty_boundary
      [⟨[⟨"attr_name", ⟨⟨0, 5⟩, ⟨0, 11⟩, some "hx-get"⟩⟩,
         ⟨"attr_value", ⟨⟨0, 13⟩, ⟨0, 17⟩, some "/foo"⟩⟩,
         ⟨"non_empty_attribute", ⟨⟨0, 5⟩, ⟨0, 18⟩, some "hx-get=\"/foo\""⟩⟩]⟩]
      ⟨0, 18⟩
      [("non_empty_attribute", ⟨"hx-get=\"/foo\"", ⟨0, 18⟩⟩),
       ("attr_value", ⟨"/foo", ⟨0, 17⟩⟩),
       ("attr_name", ⟨"hx-get", ⟨0, 11⟩⟩)]
      ⟨"hx-get", ⟨0, 11⟩⟩ ⟨"hx-get=\"/foo\"", ⟨0, 18⟩⟩
      rfl (by decide) (by decide) (by decide) (by decide) (by decide)
    rw [h]
    decide
  · have h := attr_value_non_empty_boundary
      [⟨[⟨"attr_name", ⟨⟨0, 5⟩, ⟨0, 11⟩, some "hx-get"⟩⟩,
         ⟨"attr_value", ⟨⟨0, 13⟩, ⟨0, 17⟩, some "/foo"⟩⟩,
         ⟨"non_empty_attribute", ⟨⟨0, 5⟩, ⟨0, 18⟩, some "hx-get=\"/foo\""⟩⟩]⟩]
      ⟨0, 17⟩
      [("non_empty_attribute", ⟨"hx-get=\"/foo\"", ⟨0, 18⟩⟩),
       ("attr_value", ⟨"/foo", ⟨0, 17⟩⟩),
       ("attr_name", ⟨"hx-get", ⟨0, 11⟩⟩)]
      ⟨"hx-get", ⟨0, 11⟩⟩ ⟨"hx-get=\"/foo\"", ⟨0, 18⟩⟩
      rfl (by decide) (by decide) (by decide) (by decide) (by decide)
    rw [h]
    decide

/-! ### Helper lemmas about the capture-map construction -/

theorem getProp_insertProp_isSome
    (p : List (String × CaptureDetails)) (k k' : String) (v : CaptureDetails)
    (h : (getProp p k).isSome = true) :
    (getProp (insertProp p k' v) k).isSome = true := by
  by_cases hk : k' = k <;> simp [insertProp, getProp, hk, h]

theorem getProp_foldl_insertCapture_isSome
    (cs : List QueryCapture) (p : List (String × CaptureDetails)) (k : String)
    (h : (getProp p k).isSome = true) :
    (getProp (cs.foldl insertCapture p) k).isSome = true := by
  induction cs generalizing p with
  | nil => exact h
  | cons c cs ih =>
    exact ih (insertCapture p c) (getProp_insertProp_isSome p k _ _ h)

theorem getProp_foldl_insertCapture_mem
    (cs : List QueryCapture) (p : List (String × CaptureDetails))
    (c : QueryCapture) (hc : c ∈ cs) :
    (getProp (cs.foldl insertCapture p) c.captureName).isSome = true := by
  induction cs generalizing p with
  | nil => cases hc
  | cons d ds ih =>
    rcases List.mem_cons.mp hc with h | h
    · subst h
      exact getProp_foldl_insertCapture_isSome ds (insertCapture p c)
        c.captureName (by simp [insertCapture, insertProp, getProp])
    · exact ih (insertCapture p d) h

theorem getProp_foldl_addMatch_isSome
    (ms : List QueryMatch) (p : List (String × CaptureDetails))
    (t : Point) (k : String) (h : (getProp p k).isSome = true) :
    (getProp (ms.foldl (addMatch t) p) k).isSome = true := by
  induction ms generalizing p with
  | nil => exact h
  | cons m ms ih =>
    exact ih (addMatch t p m) (getProp_foldl_insertCapture_isSome _ _ _ h)

theorem getProp_foldl_addMatch_mem
    (ms : List QueryMatch) (p : List (String × CaptureDetails))
    (t : Point) (m : QueryMatch) (c : QueryCapture)
    (hm : m ∈ ms) (hc : c ∈ m.captures)
    (hle : Point.le c.node.startPosition t = true) :
    (getProp (ms.foldl (addMatch t) p) c.captureName).isSome = true := by
  induction ms generalizing p with
  | nil => cases hm
  | cons m0 ms ih =>
    rw [List.foldl_cons]
    rcases List.mem_cons.mp hm with h | h
    · subst h
      apply getProp_foldl_addMatch_isSome
      apply getProp_foldl_insertCapture_mem
      exact List.mem_filter.mpr ⟨hc, hle⟩
    · exact ih (addMatch t p m0) h

/-- A capture with start position ≤ the trigger point leaves an entry
under its name in the capture map built by query_props. -/
theorem query_props_retains_capture
    (ms : List QueryMatch) (t : Point) (m : QueryMatch) (c : QueryCapture)
    (hm : m ∈ ms) (hc : c ∈ m.captures)
    (hle : Point.le c.node.startPosition t = true) :
    ∃ props, query_props ms t = some props ∧
      (getProp props c.captureName).isSome = true :=
  ⟨ms.foldl (addMatch t) [], rfl,
    getProp_foldl_addMatch_mem ms [] t m c hm hc hle⟩

theorem getProp_insertProp_ne
    (p : List (String × CaptureDetails)) (k k' : String) (v : CaptureDetails)
    (h : k' ≠ k) :
    getProp (insertProp p k' v) k = getProp p k := by
  simp [insertProp, getProp, h]

theorem getProp_foldl_insertCapture_none
    (cs : List QueryCapture) (p : List (String × CaptureDetails)) (k : String)
    (h : ∀ c ∈ cs, c.captureName ≠ k) :
    getProp (cs.foldl insertCapture p) k = getProp p k := by
  induction cs generalizing p with
  | nil => rfl
  | cons c cs ih =>
    rw [List.foldl_cons, ih (insertCapture p c) (fun d hd => h d (List.mem_cons_of_mem c hd))]
    exact getProp_insertProp_ne p k c.captureName _ (h c (List.mem_cons_self c cs))

theorem getProp_addMatch_none
    (t : Point) (p : List (String × CaptureDetails)) (m : QueryMatch)
    (k : String) (h : ∀ c ∈ m.captures, c.captureName ≠ k) :
    getProp (addMatch t p m) k = getProp p k := by
  unfold addMatch
  exact getProp_foldl_insertCapture_none _ _ _
    (fun c hc => h c (List.mem_filter.mp hc).1)

theorem getProp_foldl_addMatch_none
    (ms : List QueryMatch) (p : List (String × CaptureDetails))
    (t : Point) (k : String)
    (h : ∀ m ∈ ms, ∀ c ∈ m.captures, c.captureName ≠ k) :
    getProp (ms.foldl (addMatch t) p) k = getProp p k := by
  induction ms generalizing p with
  | nil => rfl
  | cons m ms ih =>
    rw [List.foldl_cons,
      ih (addMatch t p m) (fun m0 hm0 => h m0 (List.mem_cons_of_mem m hm0)),
      getProp_addMatch_none t p m k (h m (List.mem_cons_self m ms))]

/-- C8: if no raw match carries an attr_name capture whose text matches
the "hx-.*" convention, the engine-side name filter leaves no attr_name
entry in the capture map and query_attr_values yields None. -/
theorem attr_value_hx_name_filter
    (matchList : List QueryMatch) (trigger_point : Point)
    (h : ∀ m ∈ matchList, ∀ c ∈ m.captures, c.captureName = "attr_name" →
      matchesHxConvention (c.node.utf8Text.getD "") = false) :
    query_attr_values_filtered matchList trigger_point = none := by
  have hnone :
      getProp ((applyHxNameFilter matchList).foldl
        (addMatch trigger_point) []) "attr_name" = none := by
    rw [getProp_foldl_addMatch_none]
    · rfl
    · intro m hm c hc hceq
      have hmem := List.mem_filter.mp hm
      have hall := List.all_eq_true.mp hmem.2 c hc
      rw [hceq] at hall
      simp only [bne_self_eq_false, Bool.false_or] at hall
      rw [h m hmem.1 c hc hceq] at hall
      cases hall
  unfold query_attr_values_filtered query_attr_values_for_completion
    query_props
  simp [resolveAttrValue, hnone]

/-- C8 witness: the capture set of `<div class="|">` — the attribute
name "class" does not match the convention — yields no completion. -/
theorem attr_value_hx_name_filter_witness :
    query_attr_values_filtered
        [⟨[⟨"attr_name", ⟨⟨0, 5⟩, ⟨0, 10⟩, some "class"⟩⟩,
           ⟨"empty_attribute", ⟨⟨0, 5⟩, ⟨0, 13⟩, some "class=\"\""⟩⟩]⟩]
        ⟨0, 12⟩
      = none := by
  apply attr_value_hx_name_filter
  intro m hm c hc hname
  rcases List.mem_singleton.mp hm with rfl
  rcases List.mem_cons.mp hc with rfl | hc2
  · decide
  · rcases List.mem_singleton.mp hc2 with rfl
    exact absurd hname (by decide)

/-- Dropping from a match every capture whose node starts strictly after
the trigger point (keeping exactly the captures `query_props` retains). -/
def restrictMatch (t : Point) (m : QueryMatch) : QueryMatch :=
  ⟨m.captures.filter fun c => Point.le c.node.startPosition t⟩

theorem addMatch_restrictMatch (t : Point)
    (p : List (String × CaptureDetails)) (m : QueryMatch) :
    addMatch t p (restrictMatch t m) = addMatch t p m := by
  unfold addMatch restrictMatch
  rw [List.filter_filter]
  simp only [Bool.and_self]

theorem foldl_addMatch_restrict (ms : List QueryMatch)
    (p : List (String × CaptureDetails)) (t : Point) :
    (ms.map (restrictMatch t)).foldl (addMatch t) p
      = ms.foldl (addMatch t) p := by
  induction ms generalizing p with
  | nil => rfl
  | cons m ms ih =>
    simp only [List.map_cons, List.foldl_cons, addMatch_restrictMatch]
    exact ih _

/-- C3: right-of-cursor exclusion.  Removing from every match each
capture whose node start position is strictly greater than the trigger
point changes neither the capture map built by query_props nor the
result of either classify operation: text typed after the cursor never
influences the classification. -/
theorem right_of_cursor_exclusion
    (matchList : List QueryMatch) (trigger_point : Point) :
    query_props (matchList.map (restrictMatch trigger_point)) trigger_point
      = query_props matchList trigger_point ∧
    query_attr_keys_for_completion
        (matchList.map (restrictMatch trigger_point)) trigger_point
      = query_attr_keys_for_completion matchList trigger_point ∧
    query_attr_values_for_completion
        (matchList.map (restrictMatch trigger_point)) trigger_point
      = query_attr_values_for_completion matchList trigger_point := by
  have hq : query_props (matchList.map (restrictMatch trigger_point))
      trigger_point = query_props matchList trigger_point := by
    unfold query_props
    rw [foldl_addMatch_restrict]
  refine ⟨hq, ?_, ?_⟩
  · unfold query_attr_keys_for_completion
    rw [hq]
  · unfold query_attr_values_for_completion
    rw [hq]

/-- Replacing a failed utf8 decode by a successful decode of the empty
string. -/
def scrubCapture (c : QueryCapture) : QueryCapture :=
  ⟨c.captureName,
    ⟨c.node.startPosition, c.node.endPosition,
      some (c.node.utf8Text.getD "")⟩⟩

/-- scrubCapture applied to every capture of a match. -/
def scrubMatch (m : QueryMatch) : QueryMatch :=
  ⟨m.captures.map scrubCapture⟩

theorem insertCapture_scrubCapture (p : List (String × CaptureDetails))
    (c : QueryCapture) :
    insertCapture p (scrubCapture c) = insertCapture p c := by
  cases c with
  | mk name node =>
    cases node with
    | mk s e txt => cases txt <;> rfl

theorem filter_map_scrubCapture (cs : List QueryCapture) (t : Point) :
    (cs.map scrubCapture).filter
        (fun c => Point.le c.node.startPosition t)
      = (cs.filter (fun c => Point.le c.node.startPosition t)).map
          scrubCapture := by
  induction cs with
  | nil => rfl
  | cons c cs ih =>
    have hsame : Point.le (scrubCapture c).node.startPosition t
        = Point.le c.node.startPosition t := rfl
    simp only [List.map_cons, List.filter_cons, hsame]
    cases hb : Point.le c.node.startPosition t <;> simp [ih]

theorem foldl_insertCapture_scrub (cs : List QueryCapture)
    (p : List (String × CaptureDetails)) :
    (cs.map scrubCapture).foldl insertCapture p
      = cs.foldl insertCapture p := by
  induction cs generalizing p with
  | nil => rfl
  | cons c cs ih =>
    simp only [List.map_cons, List.foldl_cons, insertCapture_scrubCapture]
    exact ih _

theorem addMatch_scrubMatch (t : Point)
    (p : List (String × CaptureDetails)) (m : QueryMatch) :
    addMatch t p (scrubMatch m) = addMatch t p m := by
  unfold addMatch scrubMatch
  rw [filter_map_scrubCapture, foldl_insertCapture_scrub]

theorem foldl_addMatch_scrub (ms : List QueryMatch)
    (p : List (String × CaptureDetails)) (t : Point) :
    (ms.map scrubMatch).foldl (addMatch t) p = ms.foldl (addMatch t) p := by
  induction ms generalizing p with
  | nil => rfl
  | cons m ms ih =>
    simp only [List.map_cons, List.foldl_cons, addMatch_scrubMatch]
    exact ih _

/-- C9: text-decode degradation.  query_props never aborts (it is always
Some); a capture whose byte span fails to decode behaves exactly as one
whose text decoded to the empty string, for the capture map and for both
classify operations; and any such capture with start position ≤ the
trigger point is retained in the capture map under its name. -/
theorem decode_failure_degrades
    (matchList : List QueryMatch) (trigger_point : Point) :
    (query_props matchList trigger_point).isSome = true ∧
    query_props (matchList.map scrubMatch) trigger_point
      = query_props matchList trigger_point ∧
    query_attr_keys_for_completion (matchList.map scrubMatch) trigger_point
      = query_attr_keys_for_completion matchList trigger_point ∧
    query_attr_values_for_completion (matchList.map scrubMatch)
        trigger_point
      = query_attr_values_for_completion matchList trigger_point ∧
    (∀ m ∈ matchList, ∀ c ∈ m.captures, c.node.utf8Text = none →
      Point.le c.node.startPosition trigger_point = true →
      ∃ props, query_props matchList trigger_point = some props ∧
        (getProp props c.captureName).isSome = true) := by
  have hq : query_props (matchList.map scrubMatch) trigger_point
      = query_props matchList trigger_point := by
    unfold query_props
    rw [foldl_addMatch_scrub]
  refine ⟨rfl, hq, ?_, ?_, ?_⟩
  · unfold query_attr_keys_for_completion
    rw [hq]
  · unfold query_attr_values_for_completion
    rw [hq]
  · intro m hm c hc _ hle
    exact query_props_retains_capture matchList trigger_point m c hm hc hle

/-- C9 witness: a single attr_name capture whose byte span fails to
decode is retained as the empty string; scrubbing it changes nothing,
and classification proceeds to the normal result
AttributeName(""). -/
theorem decode_failure_degrades_witness :
    (query_props [⟨[⟨"attr_name", ⟨⟨0, 5⟩, ⟨0, 8⟩, none⟩⟩]⟩]
        ⟨0, 9⟩).isSome = true ∧
    query_attr_keys_for_completion
        ([⟨[⟨"attr_name", ⟨⟨0, 5⟩, ⟨0, 8⟩, none⟩⟩]⟩].map scrubMatch)
        ⟨0, 9⟩
      = query_attr_keys_for_completion
          [⟨[⟨"attr_name", ⟨⟨0, 5⟩, ⟨0, 8⟩, none⟩⟩]⟩] ⟨0, 9⟩ ∧
    query_attr_keys_for_completion
        [⟨[⟨"attr_name", ⟨⟨0, 5⟩, ⟨0, 8⟩, none⟩⟩]⟩] ⟨0, 9⟩
      = some (Position.AttributeName "") := by
  have h := decode_failure_degrades
    [⟨[⟨"attr_name", ⟨⟨0, 5⟩, ⟨0, 8⟩, none⟩⟩]⟩] ⟨0, 9⟩
  exact ⟨h.1, h.2.2.1, by decide⟩

end HtmxLsp
